import Mathlib

/-!
Verification of react-key-context (src/src/KeyContext.tsx).

The library has two halves:

* `createStore`: an observable cell holding one value and a JS `Set` of
  listeners, with `setValue` guarded by `Object.is`, `subscribe`
  returning an unsubscribe closure, and `notify`.

* scope chains: `KeyContextProvider` computes, inside a `useMemo` keyed
  on `[parentScope, keyName]`, either the parent scope unchanged (empty
  `keyName`) or `Object.create(parentScope || null)` extended with one
  own property `keyName -> store`; `useKeyContext`'s `getSnapshot` reads
  `scope[keyName]` through the prototype chain.

We embed both shallowly: values with decidable identity stand in for JS
values under `Object.is`; a scope chain is an explicit linked structure
whose root records which prototype (`null` or `Object.prototype`) ends
the chain; listener sets are duplicate-free lists in insertion order,
and `Set.forEach` with deletions during iteration is modelled by an
explicit loop that skips elements no longer present.
-/

/-- JS values as the library stores them, compared with `Object.is`:
primitives by value, objects by reference identity (a numeric id). -/
inductive Value where
  | undef : Value
  | boolean : Bool → Value
  | num : Int → Value
  | str : String → Value
  | obj : Nat → Value
deriving DecidableEq, Repr

/-- State of one store made by `createStore`: the captured `value` and the
`listeners` Set. A JS `Set` iterates in insertion order and holds no
duplicates; we model it as a duplicate-free list of listener identities. -/
structure Store where
  value : Value
  listeners : List Nat
deriving DecidableEq, Repr

/-- Source `createStore(initialValue)`: value seeded, empty listener set. -/
def createStore (initialValue : Value) : Store :=
  ⟨initialValue, []⟩

/-- Source `subscribe(listener)` body: `listeners.add(listener)`. A Set `add` is a
no-op when the listener is already present, else appends in insertion
order. (The returned closure is modelled by `Store.unsubscribe`.) -/
def Store.subscribe (s : Store) (l : Nat) : Store :=
  if l ∈ s.listeners then s else ⟨s.value, s.listeners ++ [l]⟩

/-- The unsubscribe closure returned by `subscribe`:
`() => listeners.delete(listener)`. `Set.delete` of an absent element is a
no-op returning `false`; no error in either case. -/
def Store.unsubscribe (s : Store) (l : Nat) : Store :=
  ⟨s.value, s.listeners.filter (fun x => decide (x ≠ l))⟩

/-- Source `listeners.forEach((l) => l())` where invoking listener `l` may call
unsubscribe closures that delete the listeners `eff l` from the set.
JS `Set.forEach` visits elements in insertion order and does not visit an
element deleted before its turn: `pending` is the snapshot of the
iteration order, `current` the live set. Returns the live set after the
iteration together with the listeners invoked, in order. -/
def runNotify (eff : Nat → List Nat) : List Nat → List Nat → List Nat × List Nat
  | [], current => (current, [])
  | l :: rest, current =>
      if l ∈ current then
        let r := runNotify eff rest (current.filter (fun x => decide (x ∉ eff l)))
        (r.1, l :: r.2)
      else
        runNotify eff rest current

/-- Listeners that do not touch the listener set while being invoked. -/
def pureListeners : Nat → List Nat :=
  fun _ => []

/-- Source `setValue(newValue)`: `if (Object.is(value, newValue)) return;` else
store `newValue` and run `listeners.forEach((l) => l())`. `eff` gives the
deletions each listener performs when invoked. Returns the updated store
and the list of listeners invoked by this call. -/
def Store.setValue (eff : Nat → List Nat) (s : Store) (newValue : Value) :
    Store × List Nat :=
  if s.value = newValue then (s, [])
  else
    let r := runNotify eff s.listeners s.listeners
    (⟨newValue, r.1⟩, r.2)

/-- What prototype ends a scope's prototype chain. The code builds scopes
with `Object.create(parentScope || null)`, so its chains end in `null`;
`objectProto` models the counterfactual chain ending in
`Object.prototype`. -/
inductive ProtoRoot where
  | nullProto : ProtoRoot
  | objectProto : ProtoRoot
deriving DecidableEq, Repr

/-- A JS object used as a scope: a chain root (identified by its
prototype), or an object with a single own property `key -> store id` and
a prototype object, exactly the shape `Object.create(proto)` followed by
one property assignment produces. -/
inductive JSObj where
  | base : ProtoRoot → JSObj
  | node : String → Nat → JSObj → JSObj
deriving DecidableEq, Repr

/-- Representative member names a property read would find on
`Object.prototype`. -/
def objectPrototypeMembers : List String :=
  ["constructor", "hasOwnProperty", "isPrototypeOf", "propertyIsEnumerable",
   "toLocaleString", "toString", "valueOf", "__proto__"]

/-- Result of the property read `scope[keyName]`: `undefined` (absent), a
bound store, or a built-in member inherited from `Object.prototype`. -/
inductive LookupResult where
  | absent : LookupResult
  | store : Nat → LookupResult
  | builtin : String → LookupResult
deriving DecidableEq, Repr

/-- JS property lookup `scope[keyName]`: own property first, then the
prototype chain; a `null`-prototype root yields `undefined`; an
`Object.prototype` root yields the built-in member when the name is one. -/
def jsGet : JSObj → String → LookupResult
  | .base .nullProto, _ => .absent
  | .base .objectProto, k =>
      if k ∈ objectPrototypeMembers then .builtin k else .absent
  | .node key sid proto, k =>
      if k = key then .store sid else jsGet proto k

/-- The scope `useMemo` body of `KeyContextProvider`:
`if (!keyName) return parentScope;` then
`newScope = Object.create(parentScope || null); newScope[keyName] = store`.
The ambient context value is `Scope | null`, modelled as `Option JSObj`;
the only falsy string is the empty string. -/
def mkScope (keyName : String) (sid : Nat) (parentScope : Option JSObj) :
    Option JSObj :=
  if keyName = "" then parentScope
  else
    some (.node keyName sid (match parentScope with
      | some p => p
      | none => .base .nullProto))

/-- Nested providers: extend an ambient scope by a list of
`(keyName, store id)` bindings, outermost first. -/
def nest (parentScope : Option JSObj) : List (String × Nat) → Option JSObj
  | [] => parentScope
  | (k, sid) :: rest => nest (mkScope k sid parentScope) rest

/-- Source `getSnapshot` of `useKeyContext`: `if (!scope) return undefined;`
`const store = scope[keyName]; return store ? store.getValue() : undefined`.
`σ` maps a store id to that store's current value. A built-in member is a
truthy non-store, so `store.getValue()` would throw: modelled as `error`. -/
def getSnapshot (scope : Option JSObj) (keyName : String) (σ : Nat → Value) :
    Except String Value :=
  match scope with
  | none => .ok .undef
  | some s =>
      match jsGet s keyName with
      | .absent => .ok .undef
      | .store sid => .ok (σ sid)
      | .builtin _ => .error "TypeError"

/-- A chain ends in the `null` prototype. -/
def nullRooted : JSObj → Bool
  | .base .nullProto => true
  | .base .objectProto => false
  | .node _ _ p => nullRooted p

/-- Memo state of one `KeyContextProvider`: the dependency values
(`keyName` and parent scope identity) and the produced scope identity from
the previous evaluation. Scope identity is an object id; `none` is the
null scope. -/
structure MemoState where
  prevKey : String
  prevParent : Option Nat
  prevScope : Option Nat
deriving DecidableEq, Repr

/-- One re-evaluation of the scope `useMemo`: if both dependencies
`[parentScope, keyName]` are unchanged under `Object.is`, return the
cached scope object; otherwise recompute the body, which passes the
parent through for an empty key and otherwise allocates a fresh object
(identity `fresh`). -/
def evalScopeMemo (st : MemoState) (keyName : String) (parent : Option Nat)
    (fresh : Nat) : Option Nat × MemoState :=
  if keyName = st.prevKey ∧ parent = st.prevParent then (st.prevScope, st)
  else
    let s : Option Nat := if keyName = "" then parent else some fresh
    (s, ⟨keyName, parent, s⟩)

/-! Helper lemmas about scope lookup. -/

/-- Extending a scope with a key different from the one looked up does not
change the snapshot: the read falls through the new node. -/
theorem getSnapshot_mkScope_ne (k K : String) (sid : Nat) (s : Option JSObj)
    (σ : Nat → Value) (h : k ≠ K) :
    getSnapshot (mkScope k sid s) K σ = getSnapshot s K σ := by
  unfold mkScope
  by_cases hk : k = ""
  · simp [hk]
  · simp only [if_neg hk]
    cases s with
    | none => simp [getSnapshot, jsGet, Ne.symm h]
    | some p => simp [getSnapshot, jsGet, Ne.symm h]

/-- Extending by a list of bindings none of which uses the key looked up
leaves the snapshot unchanged. -/
theorem getSnapshot_nest_fallthrough (K : String) (σ : Nat → Value) :
    ∀ (l : List (String × Nat)) (s : Option JSObj),
      (∀ p ∈ l, p.1 ≠ K) →
      getSnapshot (nest s l) K σ = getSnapshot s K σ := by
  intro l
  induction l with
  | nil => intro s _; rfl
  | cons hd tl ih =>
      intro s h
      obtain ⟨k, sid⟩ := hd
      have hk : k ≠ K := h (k, sid) (by simp)
      have htl : ∀ p ∈ tl, p.1 ≠ K := fun p hp => h p (by simp [hp])
      calc getSnapshot (nest (mkScope k sid s) tl) K σ
          = getSnapshot (mkScope k sid s) K σ := ih (mkScope k sid s) htl
        _ = getSnapshot s K σ := getSnapshot_mkScope_ne k K sid s σ hk

/-- Reading the key a nonempty binding just bound returns that store's
value. -/
theorem getSnapshot_mkScope_self (K : String) (sid : Nat) (s : Option JSObj)
    (σ : Nat → Value) (hK : K ≠ "") :
    getSnapshot (mkScope K sid s) K σ = .ok (σ sid) := by
  unfold mkScope
  simp only [if_neg hK]
  cases s <;> simp [getSnapshot, jsGet]

/-! Claim theorems: scope resolution. -/

/-- C1: nesting a binding of key `K` with value `A` and, inside it, another
binding of `K` with value `B` (with arbitrary other-key bindings between
the two and below the inner one) makes a lookup of `K` in the inner
subtree return `B` and a lookup of `K` between the two bindings return
`A`. -/
theorem shadowing_inner_and_outer (K : String) (hK : K ≠ "") (i j : Nat)
    (P : Option JSObj) (mid inner : List (String × Nat))
    (hmid : ∀ p ∈ mid, p.1 ≠ K) (hinner : ∀ p ∈ inner, p.1 ≠ K)
    (σ : Nat → Value) :
    getSnapshot (nest (mkScope K j (nest (mkScope K i P) mid)) inner) K σ
      = .ok (σ j)
    ∧ getSnapshot (nest (mkScope K i P) mid) K σ = .ok (σ i) := by
  constructor
  · rw [getSnapshot_nest_fallthrough K σ inner _ hinner]
    exact getSnapshot_mkScope_self K j _ σ hK
  · rw [getSnapshot_nest_fallthrough K σ mid _ hmid]
    exact getSnapshot_mkScope_self K i P σ hK

/-- Witness for C1 at a concrete chain: outer `k -> store 0`, an
intervening `u` binding, inner `k -> store 1`, a `w` binding below it. -/
theorem shadowing_inner_and_outer_witness :
    getSnapshot
        (nest (mkScope "k" 1 (nest (mkScope "k" 0 none) [("u", 2)])) [("w", 3)])
        "k" (fun n => Value.num n) = .ok (Value.num 1)
    ∧ getSnapshot (nest (mkScope "k" 0 none) [("u", 2)]) "k"
        (fun n => Value.num n) = .ok (Value.num 0) :=
  shadowing_inner_and_outer "k" (by decide) 0 1 none [("u", 2)] [("w", 3)]
    (by decide) (by decide) (fun n => Value.num n)

/-- C3: a lookup of `K` with no enclosing binding for `K` anywhere in the
ancestor chain (including the empty chain, where the ambient scope is
`null`) returns `undefined`, not an error. -/
theorem absence_returns_undefined (K : String) (l : List (String × Nat))
    (h : ∀ p ∈ l, p.1 ≠ K) (σ : Nat → Value) :
    getSnapshot (nest none l) K σ = .ok .undef := by
  rw [getSnapshot_nest_fallthrough K σ l none h]
  rfl

/-- Witness for C3: a two-binding chain with neither key equal to the one
looked up, and the empty chain. -/
theorem absence_returns_undefined_witness :
    getSnapshot (nest none [("a", 0), ("b", 1)]) "missing"
      (fun n => Value.num n) = .ok Value.undef
    ∧ getSnapshot (nest none []) "missing" (fun n => Value.num n)
      = .ok Value.undef :=
  ⟨absence_returns_undefined "missing" [("a", 0), ("b", 1)] (by decide)
      (fun n => Value.num n),
    absence_returns_undefined "missing" [] (by decide) (fun n => Value.num n)⟩

/-- C4: for distinct keys `K ≠ J`, inserting a binding of `K` between an
ancestor binding of `J` and a lookup of `J` leaves the lookup of `J`
unchanged: it still resolves to the ancestor binding of `J`. -/
theorem transparency_distinct_keys (K J : String) (hne : K ≠ J) (hJ : J ≠ "")
    (i j : Nat) (P : Option JSObj) (σ : Nat → Value) :
    getSnapshot (mkScope K i (mkScope J j P)) J σ
      = getSnapshot (mkScope J j P) J σ
    ∧ getSnapshot (mkScope K i (mkScope J j P)) J σ = .ok (σ j) := by
  have h1 := getSnapshot_mkScope_ne K J i (mkScope J j P) σ hne
  exact ⟨h1, h1.trans (getSnapshot_mkScope_self J j P σ hJ)⟩

/-- Witness for C4: a `theme` binding interposed between a `user` binding
and a lookup of `user`. -/
theorem transparency_distinct_keys_witness :
    getSnapshot (mkScope "theme" 1 (mkScope "user" 0 none)) "user"
        (fun n => Value.num n)
      = getSnapshot (mkScope "user" 0 none) "user" (fun n => Value.num n)
    ∧ getSnapshot (mkScope "theme" 1 (mkScope "user" 0 none)) "user"
        (fun n => Value.num n) = .ok (Value.num 0) :=
  transparency_distinct_keys "theme" "user" (by decide) (by decide) 1 0 none
    (fun n => Value.num n)

/-- C6: a binding node with the empty (the only falsy) key exposes the
ambient parent scope itself, the same object unchanged, and every lookup
under it resolves exactly as without the node. -/
theorem empty_key_passthrough (sid : Nat) (parentScope : Option JSObj) :
    mkScope "" sid parentScope = parentScope
    ∧ ∀ (K : String) (σ : Nat → Value),
        getSnapshot (mkScope "" sid parentScope) K σ
          = getSnapshot parentScope K σ := by
  refine ⟨rfl, fun K σ => ?_⟩
  rfl

/-- Witness for C6 at a concrete parent scope. -/
theorem empty_key_passthrough_witness :
    mkScope "" 7 (mkScope "a" 0 none) = mkScope "a" 0 none
    ∧ getSnapshot (mkScope "" 7 (mkScope "a" 0 none)) "a"
        (fun n => Value.num n)
      = getSnapshot (mkScope "a" 0 none) "a" (fun n => Value.num n) :=
  ⟨(empty_key_passthrough 7 (mkScope "a" 0 none)).1,
    (empty_key_passthrough 7 (mkScope "a" 0 none)).2 "a" (fun n => Value.num n)⟩

/-- C9: a key bound to a store whose current value is `undefined` reads as
`undefined`, the very result an unbound key gives: the two cases are
indistinguishable at the lookup result. -/
theorem bound_undefined_indistinguishable (K : String) (hK : K ≠ "")
    (sid : Nat) (P : Option JSObj) (σ : Nat → Value) (hσ : σ sid = .undef) :
    getSnapshot (mkScope K sid P) K σ = .ok .undef
    ∧ ∀ (l : List (String × Nat)), (∀ p ∈ l, p.1 ≠ K) →
        getSnapshot (mkScope K sid P) K σ = getSnapshot (nest none l) K σ := by
  have h1 : getSnapshot (mkScope K sid P) K σ = .ok .undef := by
    rw [getSnapshot_mkScope_self K sid P σ hK, hσ]
  refine ⟨h1, fun l hl => ?_⟩
  rw [h1, getSnapshot_nest_fallthrough K σ l none hl]
  rfl

/-- Witness for C9: key `k` bound to a store holding `undefined` reads
equal to a chain that never binds `k`. -/
theorem bound_undefined_indistinguishable_witness :
    getSnapshot (mkScope "k" 0 none) "k" (fun _ => Value.undef)
      = .ok Value.undef
    ∧ getSnapshot (mkScope "k" 0 none) "k" (fun _ => Value.undef)
      = getSnapshot (nest none [("a", 1)]) "k" (fun _ => Value.undef) :=
  ⟨(bound_undefined_indistinguishable "k" (by decide) 0 none
      (fun _ => Value.undef) rfl).1,
    (bound_undefined_indistinguishable "k" (by decide) 0 none
      (fun _ => Value.undef) rfl).2 [("a", 1)] (by decide)⟩

/-- Every provider-built chain ends in the `null` prototype: the code
creates each scope object with `Object.create(parentScope || null)`. -/
theorem nest_nullRooted :
    ∀ (l : List (String × Nat)) (P : Option JSObj),
      (∀ q, P = some q → nullRooted q = true) →
      ∀ s, nest P l = some s → nullRooted s = true := by
  intro l
  induction l with
  | nil => intro P hP s hs; exact hP s hs
  | cons hd tl ih =>
      intro P hP s hs
      obtain ⟨k, sid⟩ := hd
      refine ih (mkScope k sid P) ?_ s hs
      intro q hq
      unfold mkScope at hq
      by_cases hk : k = ""
      · rw [if_pos hk] at hq; exact hP q hq
      · rw [if_neg hk] at hq
        cases P with
        | none => cases hq; rfl
        | some p => cases hq; simpa [nullRooted] using hP p rfl

/-- On a `null`-rooted chain a property read never finds a built-in. -/
theorem jsGet_nullRooted_no_builtin (K : String) :
    ∀ s : JSObj, nullRooted s = true → ∀ b, jsGet s K ≠ .builtin b := by
  intro s
  induction s with
  | base r => cases r <;> simp [nullRooted, jsGet]
  | node key sid proto ih =>
      intro h b
      simp only [jsGet]
      by_cases hk : K = key
      · simp [hk]
      · simp only [if_neg hk]
        exact ih (by simpa [nullRooted] using h) b

/-- C10: provider scope chains are rooted in a `null` prototype, so for
every key name, including names of `Object.prototype` members such as
`toString`, `hasOwnProperty` or `__proto__`, a lookup never hits a
built-in: an unbound key reads as `undefined` and a bound key reads its
store's value like any other key. -/
theorem null_proto_no_interference (l : List (String × Nat)) (K : String)
    (σ : Nat → Value) (sid : Nat) :
    (∀ s, nest none l = some s → nullRooted s = true)
    ∧ (∀ s b, nest none l = some s → jsGet s K ≠ .builtin b)
    ∧ ((∀ p ∈ l, p.1 ≠ K) →
        getSnapshot (nest none l) K σ = .ok .undef)
    ∧ (K ≠ "" →
        getSnapshot (mkScope K sid (nest none l)) K σ = .ok (σ sid)) := by
  have hroot : ∀ s, nest none l = some s → nullRooted s = true :=
    nest_nullRooted l none (by intro q hq; cases hq)
  refine ⟨hroot, fun s b hs => jsGet_nullRooted_no_builtin K s (hroot s hs) b,
    fun h => ?_, fun hK => getSnapshot_mkScope_self K sid _ σ hK⟩
  rw [getSnapshot_nest_fallthrough K σ l none h]
  rfl

/-- Witness for C10 at prototype-member key names: unbound `toString`
reads `undefined` through a chain binding `hasOwnProperty`, and a bound
`toString` reads its store. -/
theorem null_proto_no_interference_witness :
    getSnapshot (nest none [("hasOwnProperty", 1)]) "toString"
      (fun n => Value.num n) = .ok Value.undef
    ∧ getSnapshot
        (mkScope "toString" 5 (nest none [("hasOwnProperty", 1)])) "toString"
        (fun n => Value.num n) = .ok (Value.num 5) :=
  ⟨(null_proto_no_interference [("hasOwnProperty", 1)] "toString"
      (fun n => Value.num n) 5).2.2.1 (by decide),
    (null_proto_no_interference [("hasOwnProperty", 1)] "toString"
      (fun n => Value.num n) 5).2.2.2 (by decide)⟩

/-- C5: a re-evaluation of the scope memo yields a scope with a new
identity exactly when the `keyName` or the parent scope identity changed;
with both dependencies unchanged the previously produced object itself is
reused. `hfresh` says the fresh allocation is a new object; `hinv` is the
memo invariant that an empty-key evaluation produced the parent itself;
`hacyc` says the ambient parent is never this node's own produced scope. -/
theorem scope_identity_stability (st : MemoState) (keyName : String)
    (parent : Option Nat) (fresh : Nat)
    (hfresh : some fresh ≠ st.prevScope)
    (hinv : st.prevKey = "" → st.prevScope = st.prevParent)
    (hacyc : st.prevKey ≠ "" → parent ≠ st.prevScope) :
    (evalScopeMemo st keyName parent fresh).1 = st.prevScope
      ↔ (keyName = st.prevKey ∧ parent = st.prevParent) := by
  unfold evalScopeMemo
  by_cases hdep : keyName = st.prevKey ∧ parent = st.prevParent
  · simp [hdep]
  · rw [if_neg hdep]
    simp only [iff_false_intro hdep, iff_false]
    by_cases hk : keyName = ""
    · simp only [hk, if_pos rfl]
      intro hpar
      by_cases hp : st.prevKey = ""
      · exact hdep ⟨hk.trans hp.symm, hpar.trans (hinv hp)⟩
      · exact hacyc hp hpar
    · simp only [if_neg hk]
      exact hfresh

/-- Witness for C5: with unchanged dependencies the memo returns the
cached scope object. -/
theorem scope_identity_stability_witness :
    (evalScopeMemo ⟨"k", some 0, some 1⟩ "k" (some 0) 2).1 = some 1
      ↔ (("k" : String) = "k" ∧ (some 0 : Option Nat) = some 0) :=
  scope_identity_stability ⟨"k", some 0, some 1⟩ "k" (some 0) 2
    (by decide) (by decide) (by decide)

/-! Helper lemmas about notification. -/

/-- Unfolding: a pending listener still in the live set is invoked; the
deletions it performs are applied before the iteration continues. -/
theorem runNotify_cons_mem (eff : Nat → List Nat) (l : Nat)
    (rest current : List Nat) (h : l ∈ current) :
    runNotify eff (l :: rest) current
      = ((runNotify eff rest
            (current.filter (fun x => decide (x ∉ eff l)))).1,
         l :: (runNotify eff rest
            (current.filter (fun x => decide (x ∉ eff l)))).2) := by
  simp [runNotify, h]

/-- Unfolding: a pending listener no longer in the live set is skipped. -/
theorem runNotify_cons_not_mem (eff : Nat → List Nat) (l : Nat)
    (rest current : List Nat) (h : l ∉ current) :
    runNotify eff (l :: rest) current = runNotify eff rest current := by
  simp [runNotify, h]

/-- Pure listeners never shrink the live set, so the iteration visits the
whole snapshot: every pending listener still registered gets invoked. -/
theorem runNotify_pure (current : List Nat) :
    ∀ pending : List Nat, (∀ x ∈ pending, x ∈ current) →
      runNotify pureListeners pending current = (current, pending) := by
  intro pending
  induction pending with
  | nil => intro _; rfl
  | cons l rest ih =>
      intro h
      have hl : l ∈ current := h l (by simp)
      have hfilt : current.filter (fun x => decide (x ∉ pureListeners l))
          = current := by
        refine List.filter_eq_self.mpr ?_
        intro a _
        simp [pureListeners]
      rw [runNotify_cons_mem pureListeners l rest current hl, hfilt,
        ih (fun x hx => h x (by simp [hx]))]

/-- A listener absent from the live set is neither invoked nor present in
the final set: the iteration only removes elements, never adds. -/
theorem runNotify_not_mem (eff : Nat → List Nat) (x : Nat) :
    ∀ (pending current : List Nat), x ∉ current →
      x ∉ (runNotify eff pending current).1
      ∧ x ∉ (runNotify eff pending current).2 := by
  intro pending
  induction pending with
  | nil => intro current hx; exact ⟨hx, by simp [runNotify]⟩
  | cons l rest ih =>
      intro current hx
      by_cases hl : l ∈ current
      · have hx2 : x ∉ current.filter (fun y => decide (y ∉ eff l)) := by
          intro hmem
          exact hx (List.mem_of_mem_filter hmem)
        have hr := ih (current.filter (fun y => decide (y ∉ eff l))) hx2
        have hxl : x ≠ l := fun he => hx (he ▸ hl)
        rw [runNotify_cons_mem eff l rest current hl]
        refine ⟨hr.1, fun hmem => ?_⟩
        rcases List.mem_cons.mp hmem with he | hm
        · exact hxl he
        · exact hr.2 hm
      · rw [runNotify_cons_not_mem eff l rest current hl]
        exact ih current hx

/-- If no listener before `a` in the iteration order removes `a`, then `a`
is invoked, and a listener `b` scheduled after `a` that `a` removes is
neither invoked nor left in the set. -/
theorem runNotify_kill (eff : Nat → List Nat) (a b : Nat) (hb : b ∈ eff a)
    (hba : b ≠ a) :
    ∀ (pre current rest : List Nat),
      a ∈ current → b ∉ pre → (∀ x ∈ pre, a ∉ eff x) →
      a ∈ (runNotify eff (pre ++ a :: rest) current).2
      ∧ b ∉ (runNotify eff (pre ++ a :: rest) current).2
      ∧ b ∉ (runNotify eff (pre ++ a :: rest) current).1 := by
  intro pre
  induction pre with
  | nil =>
      intro current rest ha _ _
      have hb2 : b ∉ current.filter (fun y => decide (y ∉ eff a)) := by
        intro hmem
        have := List.of_mem_filter hmem
        simp only [decide_eq_true_eq] at this
        exact this hb
      have hr := runNotify_not_mem eff b
        (rest) (current.filter (fun y => decide (y ∉ eff a))) hb2
      rw [List.nil_append, runNotify_cons_mem eff a rest current ha]
      refine ⟨List.mem_cons_self a _, fun hmem => ?_, hr.1⟩
      rcases List.mem_cons.mp hmem with he | hm
      · exact hba he
      · exact hr.2 hm
  | cons x pre2 ih =>
      intro current rest ha hbp hpre
      have hbx : b ≠ x := fun he => hbp (by simp [he])
      have hbp2 : b ∉ pre2 := fun he => hbp (by simp [he])
      have hax : a ∉ eff x := hpre x (by simp)
      have hpre2 : ∀ y ∈ pre2, a ∉ eff y := fun y hy => hpre y (by simp [hy])
      by_cases hx : x ∈ current
      · have ha2 : a ∈ current.filter (fun y => decide (y ∉ eff x)) := by
          refine List.mem_filter.mpr ⟨ha, ?_⟩
          simp [hax]
        have hr := ih (current.filter (fun y => decide (y ∉ eff x))) rest
          ha2 hbp2 hpre2
        rw [List.cons_append, runNotify_cons_mem eff x _ current hx]
        refine ⟨List.mem_cons_of_mem x hr.1, fun hmem => ?_, hr.2.2⟩
        rcases List.mem_cons.mp hmem with he | hm
        · exact hbx he
        · exact hr.2.1 hm
      · rw [List.cons_append, runNotify_cons_not_mem eff x _ current hx]
        exact ih current rest ha hbp2 hpre2

/-! Claim theorems: the observable store. -/

/-- C2: `setValue` with a value identical under `Object.is` to the stored
one leaves the store unchanged and invokes no listener; with a
non-identical value it stores it and invokes every registered
(non-mutating) listener exactly once. -/
theorem set_value_notification (s : Store) (v : Value)
    (hnd : s.listeners.Nodup) :
    (s.value = v → Store.setValue pureListeners s v = (s, []))
    ∧ (s.value ≠ v →
        (Store.setValue pureListeners s v).1.value = v
        ∧ (Store.setValue pureListeners s v).1.listeners = s.listeners
        ∧ (Store.setValue pureListeners s v).2 = s.listeners
        ∧ ∀ l ∈ s.listeners,
            (Store.setValue pureListeners s v).2.count l = 1) := by
  constructor
  · intro h
    simp [Store.setValue, h]
  · intro h
    have hrun := runNotify_pure s.listeners s.listeners (fun x hx => hx)
    have heq : Store.setValue pureListeners s v
        = (⟨v, s.listeners⟩, s.listeners) := by
      simp [Store.setValue, h, hrun]
    rw [heq]
    exact ⟨rfl, rfl, rfl, fun l hl => List.count_eq_one_of_mem hnd hl⟩

/-- Witness for C2: identical update is a no-op with zero invocations;
distinct update invokes the two registered listeners once each. -/
theorem set_value_notification_witness :
    Store.setValue pureListeners ⟨Value.num 0, [7, 8]⟩ (Value.num 0)
      = (⟨Value.num 0, [7, 8]⟩, [])
    ∧ (Store.setValue pureListeners ⟨Value.num 0, [7, 8]⟩ (Value.num 1)).2.count 7
      = 1 :=
  ⟨(set_value_notification ⟨Value.num 0, [7, 8]⟩ (Value.num 0) (by decide)).1
      rfl,
    ((set_value_notification ⟨Value.num 0, [7, 8]⟩ (Value.num 1)
      (by decide)).2 (by decide)).2.2.2 7 (by decide)⟩

/-- C7: when a listener invoked during a `setValue` notification
unsubscribes a listener scheduled later in the same notification, nothing
crashes, the invoker itself runs, the just-removed listener is not invoked
for this notification, and it is gone from the set for subsequent ones. -/
theorem removal_during_notification (eff : Nat → List Nat) (s : Store)
    (v : Value) (a b : Nat) (pre mid post : List Nat)
    (hL : s.listeners = pre ++ a :: (mid ++ b :: post))
    (hnd : s.listeners.Nodup)
    (hb : b ∈ eff a)
    (hpre : ∀ x ∈ pre, a ∉ eff x)
    (hv : s.value ≠ v) :
    a ∈ (Store.setValue eff s v).2
    ∧ b ∉ (Store.setValue eff s v).2
    ∧ b ∉ (Store.setValue eff s v).1.listeners := by
  have hnd2 : (pre ++ a :: (mid ++ b :: post)).Nodup := hL ▸ hnd
  have hdisj := (List.nodup_append.mp hnd2).2.2
  have hbtail : b ∈ a :: (mid ++ b :: post) := by simp
  have hbpre : b ∉ pre := fun hmem => hdisj hmem hbtail
  have hba : b ≠ a := by
    have hcons := (List.nodup_cons.mp (List.nodup_append.mp hnd2).2.1).1
    intro he
    exact hcons (he ▸ (by simp : b ∈ mid ++ b :: post))
  have ha : a ∈ s.listeners := by
    rw [hL]; simp
  have hk := runNotify_kill eff a b hb hba pre s.listeners
    (mid ++ b :: post) ha hbpre hpre
  rw [hL] at hk
  simp only [Store.setValue, if_neg hv, ← hL]
  rw [hL]
  exact ⟨hk.1, hk.2.1, hk.2.2⟩

/-- Witness for C7: listener 1 removes listener 2 while a notification for
the value change 0 to 9 runs; 1 is invoked, 2 is not, and 2 is gone. -/
theorem removal_during_notification_witness :
    1 ∈ (Store.setValue (fun n => if n = 1 then [2] else [])
        ⟨Value.num 0, [1, 2]⟩ (Value.num 9)).2
    ∧ 2 ∉ (Store.setValue (fun n => if n = 1 then [2] else [])
        ⟨Value.num 0, [1, 2]⟩ (Value.num 9)).2
    ∧ 2 ∉ (Store.setValue (fun n => if n = 1 then [2] else [])
        ⟨Value.num 0, [1, 2]⟩ (Value.num 9)).1.listeners :=
  removal_during_notification (fun n => if n = 1 then [2] else [])
    ⟨Value.num 0, [1, 2]⟩ (Value.num 9) 1 2 [] [] [] rfl (by decide)
    (by decide) (by simp) (by decide)

/-- C8: the unsubscribe closure returned for a subscribed listener removes
it; calling the closure again is a no-op that changes nothing and raises
no error, and other listeners are untouched. -/
theorem unsubscribe_idempotent (s : Store) (l : Nat) :
    l ∈ (Store.subscribe s l).listeners
    ∧ l ∉ (Store.unsubscribe (Store.subscribe s l) l).listeners
    ∧ Store.unsubscribe (Store.unsubscribe (Store.subscribe s l) l) l
        = Store.unsubscribe (Store.subscribe s l) l
    ∧ ∀ m, m ≠ l →
        (m ∈ (Store.unsubscribe (Store.subscribe s l) l).listeners
          ↔ m ∈ (Store.subscribe s l).listeners) := by
  have hfilt : ∀ L : List Nat,
      (L.filter (fun x => decide (x ≠ l))).filter (fun x => decide (x ≠ l))
        = L.filter (fun x => decide (x ≠ l)) := by
    intro L
    rw [List.filter_filter]
    simp
  refine ⟨?_, ?_, ?_, ?_⟩
  · by_cases h : l ∈ s.listeners <;> simp [Store.subscribe, h]
  · simp [Store.unsubscribe, List.mem_filter]
  · simp only [Store.unsubscribe]
    exact congrArg (fun L => Store.mk (Store.subscribe s l).value L)
      (hfilt (Store.subscribe s l).listeners)
  · intro m hm
    simp [Store.unsubscribe, List.mem_filter, hm]

/-- Witness for C8 at a concrete store: subscribe 3, unsubscribe it twice,
listener 5 remains visible throughout. -/
theorem unsubscribe_idempotent_witness :
    3 ∈ (Store.subscribe ⟨Value.num 0, [5]⟩ 3).listeners
    ∧ 3 ∉ (Store.unsubscribe (Store.subscribe ⟨Value.num 0, [5]⟩ 3) 3).listeners
    ∧ Store.unsubscribe
          (Store.unsubscribe (Store.subscribe ⟨Value.num 0, [5]⟩ 3) 3) 3
        = Store.unsubscribe (Store.subscribe ⟨Value.num 0, [5]⟩ 3) 3
    ∧ (5 ∈ (Store.unsubscribe (Store.subscribe ⟨Value.num 0, [5]⟩ 3) 3).listeners
        ↔ 5 ∈ (Store.subscribe ⟨Value.num 0, [5]⟩ 3).listeners) :=
  ⟨(unsubscribe_idempotent ⟨Value.num 0, [5]⟩ 3).1,
    (unsubscribe_idempotent ⟨Value.num 0, [5]⟩ 3).2.1,
    (unsubscribe_idempotent ⟨Value.num 0, [5]⟩ 3).2.2.1,
    (unsubscribe_idempotent ⟨Value.num 0, [5]⟩ 3).2.2.2 5 (by decide)⟩
